import Mathlib

/-!
Verification development for the email scraper (`src/app.js`).

JavaScript strings are modelled as lists of UTF-16 code units (`List Nat`);
the HTML document produced by the parser is modelled as an abstract node
tree; the network (static fetch) and the headless browser (render fallback)
are modelled as an explicit environment record.  All definitions are
translated from `src/app.js`.
-/

/-- JS strings, modelled as lists of UTF-16 code units. -/
abbrev JStr := List Nat

/-- Code units of a Lean string literal (all inputs used here are ASCII). -/
def jstr (s : String) : JStr := s.data.map Char.toNat

/-- Association lookup (JS object property access; first binding wins,
matching duplicate-attribute handling of the HTML parser). -/
def lookupCU : List (JStr × JStr) → JStr → Option JStr
  | [], _ => none
  | (k, v) :: rest, key => if k = key then some v else lookupCU rest key

/-- `p` is a prefix of `s` (JS `startsWith`; also the CSS `[href^=...]` test). -/
def hasPfx : JStr → JStr → Bool
  | [], _ => true
  | _ :: _, [] => false
  | p :: ps, c :: cs => p = c && hasPfx ps cs

/-- The JS whitespace class (`\s`, and the set trimmed by `String.prototype.trim`). -/
def isJsWs (n : Nat) : Bool :=
  n = 9 || n = 10 || n = 11 || n = 12 || n = 13 || n = 32 || n = 160 ||
  n = 5760 || (8192 ≤ n && n ≤ 8202) || n = 8232 || n = 8233 ||
  n = 8239 || n = 8287 || n = 12288 || n = 65279

/-- JS `String.prototype.trim`. -/
def trimCU (s : JStr) : JStr := ((s.dropWhile isJsWs).reverse.dropWhile isJsWs).reverse

/-- JS `toLowerCase` on one code unit (the scraped emails are ASCII). -/
def lowerCode (n : Nat) : Nat := if 65 ≤ n ∧ n ≤ 90 then n + 32 else n

/-- JS `String.prototype.toLowerCase`. -/
def lowerCU (s : JStr) : JStr := s.map lowerCode

/-- JS `Set.prototype.add`: insertion order kept, duplicates ignored. -/
def insertCU (acc : List JStr) (x : JStr) : List JStr := if x ∈ acc then acc else acc ++ [x]

/-- JS `Array.prototype.join(',')` (44 is `,`). -/
def joinComma : List JStr → JStr
  | [] => []
  | [x] => x
  | x :: y :: rest => x ++ (44 :: joinComma (y :: rest))

/-! ### The email pattern

`/\b[A-Za-z0-9._%+-]+@[A-Za-z0-9.-]+\.[A-Za-z]{2,}\b/` of `src/app.js`,
as an explicit leftmost, greedy-with-backtracking matcher. -/

/-- The `\w` class used by the `\b` assertion: `[A-Za-z0-9_]`. -/
def isWordCU (n : Nat) : Bool :=
  (65 ≤ n && n ≤ 90) || (97 ≤ n && n ≤ 122) || (48 ≤ n && n ≤ 57) || n = 95

/-- The local-part class `[A-Za-z0-9._%+-]`. -/
def isLocalCU (n : Nat) : Bool :=
  (65 ≤ n && n ≤ 90) || (97 ≤ n && n ≤ 122) || (48 ≤ n && n ≤ 57) ||
  n = 46 || n = 95 || n = 37 || n = 43 || n = 45

/-- The domain class `[A-Za-z0-9.-]`. -/
def isDomainCU (n : Nat) : Bool :=
  (65 ≤ n && n ≤ 90) || (97 ≤ n && n ≤ 122) || (48 ≤ n && n ≤ 57) ||
  n = 46 || n = 45

/-- The TLD class `[A-Za-z]`. -/
def isTldCU (n : Nat) : Bool := (65 ≤ n && n ≤ 90) || (97 ≤ n && n ≤ 122)

/-- Length of the maximal prefix run satisfying `p` (a greedy `+`/`*` step). -/
def runLen (p : Nat → Bool) : JStr → Nat
  | [] => 0
  | c :: cs => if p c then runLen p cs + 1 else 0

/-- Is the code unit at index `i` a word character (out of range counts as no)? -/
def wordAtCU (s : JStr) (i : Nat) : Bool :=
  match s.get? i with
  | some c => isWordCU c
  | none => false

/-- The `\b` word-boundary assertion at position `i`. -/
def boundaryAt (s : JStr) (i : Nat) : Bool :=
  if i = 0 then wordAtCU s 0 else wordAtCU s (i - 1) != wordAtCU s i

/-- `[n, n-1, ..., 1]`: the order a greedy `+` tries candidate lengths. -/
def countdown : Nat → List Nat
  | 0 => []
  | n + 1 => (n + 1) :: countdown n

/-- First hit of `f` over a list of candidates (backtracking search). -/
def firstSome {α : Type} (f : Nat → Option α) : List Nat → Option α
  | [] => none
  | k :: ks =>
    match f k with
    | some v => some v
    | none => firstSome f ks

/-- Try the email pattern anchored at position `i`; return the end position of
the match the JS engine produces there (greedy, backtracking). -/
def matchAt (s : JStr) (i : Nat) : Option Nat :=
  if boundaryAt s i then
    let localMax := runLen isLocalCU (s.drop i)
    firstSome (fun l =>
      if s.get? (i + l) = some 64 then
        let domMax := runLen isDomainCU (s.drop (i + l + 1))
        firstSome (fun d =>
          if s.get? (i + l + 1 + d) = some 46 then
            let tldMax := runLen isTldCU (s.drop (i + l + 1 + d + 1))
            firstSome (fun t =>
              if 2 ≤ t ∧ boundaryAt s (i + l + 1 + d + 1 + t) then
                some (i + l + 1 + d + 1 + t)
              else none) (countdown tldMax)
          else none) (countdown domMax)
      else none) (countdown localMax)
  else none

/-- Scan positions `i, i+1, ...` (bounded by fuel) for the first hit of `f`. -/
def firstHitAux {α : Type} (f : Nat → Option α) : Nat → Nat → Option α
  | _, 0 => none
  | i, fuel + 1 =>
    match f i with
    | some v => some v
    | none => firstHitAux f (i + 1) fuel

/-- Leftmost match of the email pattern: start and end positions. -/
def firstMatch (s : JStr) : Option (Nat × Nat) :=
  firstHitAux (fun i => (matchAt s i).map (fun e => (i, e))) 0 (s.length + 1)

/-- JS `String.prototype.match` with the non-global (strict) pattern:
the leftmost matched substring. -/
def strictMatch (s : JStr) : Option JStr :=
  (firstMatch s).map (fun p => (s.drop p.1).take (p.2 - p.1))

/-- The `while ((m = re.exec(str)) !== null)` loop with the global pattern:
successive non-overlapping leftmost matches. -/
def allMatchesAux (s : JStr) : Nat → Nat → List JStr
  | _, 0 => []
  | i, fuel + 1 =>
    match firstHitAux (fun j => (matchAt s j).map (fun e => (j, e))) i (s.length + 1 - i) with
    | none => []
    | some (j, e) => ((s.drop j).take (e - j)) :: allMatchesAux s e fuel

/-- All matches of the global loose pattern over `s`. -/
def allMatches (s : JStr) : List JStr := allMatchesAux s 0 (s.length + 1)

/-! ### `decodeURIComponent` (strict UTF-8 percent-decoding; `none` = URIError) -/

/-- Value of a hex digit code unit. -/
def hexVal (n : Nat) : Option Nat :=
  if 48 ≤ n ∧ n ≤ 57 then some (n - 48)
  else if 65 ≤ n ∧ n ≤ 70 then some (n - 55)
  else if 97 ≤ n ∧ n ≤ 102 then some (n - 87)
  else none

/-- Read one `%XX` escape (37 is `%`). -/
def pctByte : JStr → Option (Nat × JStr)
  | 37 :: h1 :: h2 :: rest =>
    match hexVal h1, hexVal h2 with
    | some a, some b => some (16 * a + b, rest)
    | _, _ => none
  | _ => none

/-- Read one `%XX` escape that must be a UTF-8 continuation byte. -/
def contByte (s : JStr) : Option (Nat × JStr) :=
  match pctByte s with
  | some (b, rest) => if 128 ≤ b ∧ b ≤ 191 then some (b, rest) else none
  | none => none

/-- Accumulate `k` continuation bytes onto `acc`. -/
def contAcc : Nat → Nat → JStr → Option (Nat × JStr)
  | 0, acc, r => some (acc, r)
  | k + 1, acc, r =>
    match contByte r with
    | some (b, r2) => contAcc k (acc * 64 + (b - 128)) r2
    | none => none

/-- Decode one escape sequence starting at a `%`, yielding a code point
(strict UTF-8: overlong forms, surrogates and out-of-range values fail). -/
def decodeSeq (s : JStr) : Option (Nat × JStr) :=
  match pctByte s with
  | none => none
  | some (b, rest) =>
    if b < 128 then some (b, rest)
    else if 194 ≤ b ∧ b ≤ 223 then contAcc 1 (b - 192) rest
    else if 224 ≤ b ∧ b ≤ 239 then
      match contByte rest with
      | some (b1, r1) =>
        if (b = 224 → 160 ≤ b1) ∧ (b = 237 → b1 ≤ 159) then
          contAcc 1 ((b - 224) * 64 + (b1 - 128)) r1
        else none
      | none => none
    else if 240 ≤ b ∧ b ≤ 244 then
      match contByte rest with
      | some (b1, r1) =>
        if (b = 240 → 144 ≤ b1) ∧ (b = 244 → b1 ≤ 143) then
          contAcc 2 ((b - 240) * 64 + (b1 - 128)) r1
        else none
      | none => none
    else none

/-- Encode a code point as UTF-16 code units (surrogate pair above `0xFFFF`). -/
def toUTF16 (v : Nat) : JStr :=
  if v < 65536 then [v]
  else [55296 + (v - 65536) / 1024, 56320 + (v - 65536) % 1024]

/-- Fueled decoding loop over the whole string. -/
def decodeAux : Nat → JStr → Option JStr
  | _, [] => some []
  | 0, _ :: _ => none
  | fuel + 1, c :: rest =>
    if c = 37 then
      match decodeSeq (c :: rest) with
      | none => none
      | some (v, r) =>
        match decodeAux fuel r with
        | some out => some (toUTF16 v ++ out)
        | none => none
    else
      match decodeAux fuel rest with
      | some out => some (c :: out)
      | none => none

/-- JS `decodeURIComponent`; `none` models the thrown `URIError`. -/
def decodeURIComponentCU (s : JStr) : Option JStr := decodeAux s.length s

/-! ### The parsed document

`cheerio.load(html)` (an external, best-effort HTML parser) is abstracted:
a parsed document is the forest of body-level nodes of a traversable tree,
in first-child/next-sibling form. -/

/-- The parsed document forest: empty, a text node followed by its siblings,
or an element with tag name, ordered attribute list, children and siblings. -/
inductive Dom where
  | nil
  | text (s : JStr) (sib : Dom)
  | elem (tag : JStr) (attrs : List (JStr × JStr)) (children : Dom) (sib : Dom)
deriving Repr

/-- `$('script, style').remove()`: delete every script/style subtree. -/
def stripNodes : Dom → Dom
  | .nil => .nil
  | .text s sib => .text s (stripNodes sib)
  | .elem t a c sib =>
    if t = jstr "script" ∨ t = jstr "style" then stripNodes sib
    else .elem t a (stripNodes c) (stripNodes sib)

/-- Does an element match the selector `a[href^="mailto:"]`? -/
def isMailtoA (tag : JStr) (attrs : List (JStr × JStr)) : Bool :=
  tag = jstr "a" && hasPfx (jstr "mailto:") ((lookupCU attrs (jstr "href")).getD [])

/-- Attribute lists of the elements matching `a[href^="mailto:"]`,
in document (pre)order. -/
def selectMailto : Dom → List (List (JStr × JStr))
  | .nil => []
  | .text _ sib => selectMailto sib
  | .elem t a c sib =>
    (if isMailtoA t a then [a] else []) ++ selectMailto c ++ selectMailto sib

/-- `.replace(/^mailto:/, '').split('?')[0].trim()` applied to an href value. -/
def mailtoXform (h : JStr) : JStr :=
  trimCU ((if hasPfx (jstr "mailto:") h then h.drop 7 else h).takeWhile (fun c => c ≠ 63))

/-- The mailto candidates: href of each selected anchor, transformed. -/
def mailtoCands (d : Dom) : List JStr :=
  (selectMailto d).filterMap (fun a => (lookupCU a (jstr "href")).map mailtoXform)

/-- The `$('a[href^="mailto:"]').each(...)` loop with the property access
`$(el).attr('href')` modelled as fallible (a missing attribute would raise a
`TypeError`, which nothing in `basicScrape` catches). -/
def mailtoCandsEAux : List (List (JStr × JStr)) → Except String (List JStr)
  | [] => .ok []
  | a :: rest =>
    match lookupCU a (jstr "href") with
    | none => .error "TypeError: href is undefined"
    | some h =>
      match mailtoCandsEAux rest with
      | .ok l => .ok (mailtoXform h :: l)
      | .error e => .error e

/-- Fallible version of `mailtoCands`. -/
def mailtoCandsE (d : Dom) : Except String (List JStr) :=
  mailtoCandsEAux (selectMailto d)

/-- `$('body').text()`: concatenated text content, in document order. -/
def bodyText : Dom → JStr
  | .nil => []
  | .text s sib => s ++ bodyText sib
  | .elem _ _ c sib => bodyText c ++ bodyText sib

/-- `Object.values(el.attribs)` over `$('*')`: every attribute value of every
element, in document (pre)order. -/
def attrVals : Dom → List JStr
  | .nil => []
  | .text _ sib => attrVals sib
  | .elem _ a c sib => a.map Prod.snd ++ attrVals c ++ attrVals sib

/-- Build `rawSet` from the three candidate sources, given the mailto
candidates (insertion-ordered set semantics). -/
def poolFrom (d : Dom) (mc : List JStr) : List JStr :=
  let s1 := mc.foldl insertCU []
  let s2 := (allMatches (bodyText d)).foldl insertCU s1
  (attrVals d).foldl (fun acc v => (allMatches v).foldl insertCU acc) s2

/-- The pooled raw candidates of a (script/style-stripped) document. -/
def rawPool (d : Dom) : List JStr := poolFrom d (mailtoCands d)

/-- The image-extension exclusion set. -/
def imageExts : List JStr :=
  [jstr "png", jstr "jpg", jstr "jpeg", jstr "gif", jstr "svg",
   jstr "webp", jstr "bmp", jstr "tiff"]

/-- `email.split('.').pop()`: the segment after the last dot (46 is `.`). -/
def lastDotSeg (s : JStr) : JStr :=
  s.foldl (fun acc c => if c = 46 then [] else acc ++ [c]) []

/-- One iteration of the sanitize loop: percent-decode (keeping the original
on failure), strict re-match, lower-case, image-extension filter, set insert. -/
def sanitizeStep (acc : List JStr) (raw : JStr) : List JStr :=
  match strictMatch ((decodeURIComponentCU raw).getD raw) with
  | none => acc
  | some found =>
    if lastDotSeg (lowerCU found) ∈ imageExts then acc else insertCU acc (lowerCU found)

/-- The sanitize/dedupe loop over the pooled candidates. -/
def sanitize (raws : List JStr) : List JStr := raws.foldl sanitizeStep []

/-- `basicScrape` of `src/app.js` on a parsed document. -/
def basicScrape (doc : Dom) : List JStr :=
  sanitize (rawPool (stripNodes doc))

/-- `basicScrape` with the fallible attribute access made explicit. -/
def basicScrapeE (doc : Dom) : Except String (List JStr) :=
  (mailtoCandsE (stripNodes doc)).map
    (fun mc => sanitize (poolFrom (stripNodes doc) mc))

/-! ### Per-URL resolver (`scrapeEmails`) -/

/-- The outside world: the static fetch (`none` = the request rejects), the
`browser.newPage()` call, and the rendered content of a navigated page
(`.error` = navigation error / 30s timeout, absorbed by the catch). -/
structure Env where
  fetchResult : JStr → Option (JStr × Dom)
  newPageOk : Bool
  renderResult : JStr → Except String Dom

/-- Outcome of the Puppeteer fallback block (lines 88-99 of `src/app.js`):
rendered document if any, pages opened, pages closed, warnings printed. -/
structure RenderOut where
  content : Option Dom
  opened : Nat
  closed : Nat
  warnings : List String
deriving Repr

/-- The `try { page = await browser.newPage(); ... } catch { warn } finally
{ if (page) await page.close() }` block, rendering `finalUrl`. -/
def renderFallback (env : Env) (finalUrl : JStr) : RenderOut :=
  if env.newPageOk then
    match env.renderResult finalUrl with
    | .ok doc => { content := some doc, opened := 1, closed := 1, warnings := [] }
    | .error msg =>
      { content := none, opened := 1, closed := 1,
        warnings := ["Puppeteer error: " ++ msg] }
  else { content := none, opened := 0, closed := 0, warnings := ["Puppeteer error: newPage failed"] }

/-- Result of `scrapeEmails`: the value or the thrown error, plus the
page/tab accounting and warnings of the fallback. -/
structure ScrapeOut where
  result : Except String (List JStr)
  opened : Nat
  closed : Nat
  warnings : List String
deriving Repr

/-- `scrapeEmails(url, browser)` of `src/app.js`: static fetch (a rejection
propagates), `basicScrape` on the body, and on an empty result the Puppeteer
fallback on the final (post-redirect) URL. -/
def scrapeEmails (env : Env) (url : JStr) : ScrapeOut :=
  match env.fetchResult url with
  | none => { result := .error "fetch failed", opened := 0, closed := 0, warnings := [] }
  | some (finalUrl, body) =>
    let emails := basicScrape body
    if emails = [] then
      let r := renderFallback env finalUrl
      { result := .ok (match r.content with
          | some rendered => basicScrape rendered
          | none => emails),
        opened := r.opened, closed := r.closed, warnings := r.warnings }
    else { result := .ok emails, opened := 0, closed := 0, warnings := [] }

/-! ### Batch driver and output writer (the main IIFE, parts D and E) -/

/-- An input record: an ordered mapping of column name to string value. -/
abbrev JRec := List (JStr × JStr)

/-- JS property assignment `rec[k] = v`: overwrite in place, else append. -/
def setKey (rec : JRec) (k v : JStr) : JRec :=
  if (lookupCU rec k).isSome then rec.map (fun p => if p.1 = k then (k, v) else p)
  else rec ++ [(k, v)]

/-- One hex digit as a code unit (lower case, as `JSON.stringify` emits). -/
def hexCh (n : Nat) : Nat := if n < 10 then 48 + n else 87 + n

/-- `JSON.stringify` escaping of one code unit of a string. -/
def jsonEscCh (c : Nat) : JStr :=
  if c = 34 then [92, 34] else if c = 92 then [92, 92]
  else if c = 8 then [92, 98] else if c = 9 then [92, 116] else if c = 10 then [92, 110]
  else if c = 12 then [92, 102] else if c = 13 then [92, 114]
  else if c < 32 then [92, 117, 48, 48, hexCh (c / 16), hexCh (c % 16)]
  else [c]

/-- `JSON.stringify` of a string (34 is the double quote). -/
def jsonStr (s : JStr) : JStr := [34] ++ s.flatMap jsonEscCh ++ [34]

/-- `JSON.stringify` of an array of strings (91/93 are `[`/`]`). -/
def jsonArr (l : List JStr) : JStr := [91] ++ joinComma (l.map jsonStr) ++ [93]

/-- The per-record loop body (lines 133-147): look up `rec.website`; a missing
or empty URL yields `'[]'`; otherwise scrape, and on a thrown error record
the literal `'"ERROR"'` (a seven-character value: ERROR inside quote marks). -/
def processRecord (env : Env) (rec : JRec) : JRec :=
  match lookupCU rec (jstr "website") with
  | none => setKey rec (jstr "emails") (jstr "[]")
  | some url =>
    if url = [] then setKey rec (jstr "emails") (jstr "[]")
    else
      match (scrapeEmails env url).result with
      | .ok emails => setKey rec (jstr "emails") (jsonArr emails)
      | .error _ => setKey rec (jstr "emails") (jstr "\"ERROR\"")

/-- `escapeCell`: wrap in quotes and double up any existing quotes. -/
def escapeCell (v : JStr) : JStr :=
  [34] ++ v.flatMap (fun c => if c = 34 then [34, 34] else [c]) ++ [34]

/-- One output row: `finalHeaders.map(h => escapeCell(rec[h] ?? '')).join(',')`. -/
def buildRow (headers : List JStr) (rec : JRec) : JStr :=
  joinComma (headers.map (fun h => escapeCell ((lookupCU rec h).getD [])))

/-- Parts A (emptiness check), D and E of the main IIFE: `none` models the
early return on an empty record list (no output written); otherwise the
lines of the output table. -/
def runMain (env : Env) (records : List JRec) : Option (List JStr) :=
  match records with
  | [] => none
  | r0 :: rest =>
    let processed := (r0 :: rest).map (processRecord env)
    let originalHeaders := (processed.headD []).map Prod.fst
    let finalHeaders := originalHeaders ++ [jstr "emails"]
    some (joinComma finalHeaders :: processed.map (buildRow finalHeaders))

/-! ### RFC-4180 unescaping (specification-side inverse of `escapeCell`) -/

/-- Undo the doubling of quotes inside a cell body; a lone quote is invalid. -/
def undouble : JStr → Option JStr
  | [] => some []
  | 34 :: 34 :: rest => (undouble rest).map (fun l => 34 :: l)
  | 34 :: _ => none
  | c :: rest => (undouble rest).map (fun l => c :: l)

/-- Modelled from the spec: undo the RFC-4180-style cell wrapping/escaping
(`escapeCell` is the writer; this is the reader the claim measures with). -/
def unescapeCell (s : JStr) : Option JStr :=
  match s with
  | 34 :: rest =>
    if rest.getLast? = some 34 ∧ rest ≠ [] then undouble rest.dropLast else none
  | _ => none

/-! ### Output filename (part B of the main IIFE) -/

/-- Try `/<title>([^<]+)<\/title>/` anchored at position `i`
(60 is `<`): literal `<title>`, a nonempty run of non-`<`, literal `</title>`. -/
def titleAt (s : JStr) (i : Nat) : Option JStr :=
  if hasPfx (jstr "<title>") (s.drop i) then
    let r := runLen (fun c => c ≠ 60) (s.drop (i + 7))
    if 1 ≤ r ∧ hasPfx (jstr "</title>") (s.drop (i + 7 + r)) then
      some ((s.drop (i + 7)).take r)
    else none
  else none

/-- `htmlDoc.match(/<title>([^<]+)<\/title>/)`: the first captured title. -/
def findTitle (s : JStr) : Option JStr :=
  firstHitAux (fun i => titleAt s i) 0 (s.length + 1)

/-- Does `s.drop i` lie in the language of `/\s*-\s*Google Sheets$/`
(45 is `-`)? The whitespace runs are forced, so this is deterministic. -/
def gsSuffixAt (s : JStr) (i : Nat) : Bool :=
  let t := s.drop i
  let w1 := runLen isJsWs t
  match t.get? w1 with
  | some 45 =>
    let t2 := t.drop (w1 + 1)
    let w2 := runLen isJsWs t2
    t2.drop w2 = jstr "Google Sheets"
  | _ => false

/-- `.replace(/\s*-\s*Google Sheets$/, '')`: drop the leftmost end-anchored
match, if any. -/
def stripGS (s : JStr) : JStr :=
  match firstHitAux (fun i => if gsSuffixAt s i then some i else none) 0 (s.length + 1) with
  | some i => s.take i
  | none => s

/-- Part B of the main IIFE: the output filename from the sheet page
(`none` models a failed fetch of the edit page, handled by the catch). -/
def outFilename (page : Option JStr) : JStr :=
  match page with
  | none => jstr "output.csv"
  | some htmlDoc =>
    match findTitle htmlDoc with
    | none => jstr "output.csv"
    | some t => stripGS t ++ jstr ".csv"

/-! ### Helper lemmas -/

theorem lowerCode_idem (n : Nat) : lowerCode (lowerCode n) = lowerCode n := by
  simp only [lowerCode]
  by_cases h : 65 ≤ n ∧ n ≤ 90
  · rw [if_pos h, if_neg (show ¬(65 ≤ n + 32 ∧ n + 32 ≤ 90) by omega)]
  · rw [if_neg h, if_neg h]

theorem lowerCU_idem (s : JStr) : lowerCU (lowerCU s) = lowerCU s := by
  simp only [lowerCU, List.map_map]
  exact List.map_congr_left (fun c _ => lowerCode_idem c)

theorem mem_insertCU {acc : List JStr} {x y : JStr} (h : y ∈ insertCU acc x) :
    y ∈ acc ∨ y = x := by
  unfold insertCU at h
  split at h
  · exact Or.inl h
  · rcases List.mem_append.1 h with h | h
    · exact Or.inl h
    · exact Or.inr (List.mem_singleton.1 h)

theorem nodup_insertCU {acc : List JStr} {x : JStr} (h : acc.Nodup) :
    (insertCU acc x).Nodup := by
  unfold insertCU
  split
  · exact h
  · rename_i hx
    refine List.Nodup.append h (List.nodup_singleton x) ?_
    intro a ha hax
    rw [List.mem_singleton] at hax
    subst hax
    exact hx ha

theorem sanitizeStep_inv (acc : List JStr) (raw : JStr)
    (h1 : ∀ e ∈ acc, lowerCU e = e) (h2 : acc.Nodup) :
    (∀ e ∈ sanitizeStep acc raw, lowerCU e = e) ∧ (sanitizeStep acc raw).Nodup := by
  simp only [sanitizeStep]
  split
  · exact ⟨h1, h2⟩
  · rename_i found hm
    split
    · exact ⟨h1, h2⟩
    · constructor
      · intro e he
        rcases mem_insertCU he with he | he
        · exact h1 e he
        · subst he
          exact lowerCU_idem found
      · exact nodup_insertCU h2

theorem sanitize_inv (raws : List JStr) :
    ∀ acc, (∀ e ∈ acc, lowerCU e = e) → acc.Nodup →
      (∀ e ∈ raws.foldl sanitizeStep acc, lowerCU e = e) ∧
      (raws.foldl sanitizeStep acc).Nodup := by
  induction raws with
  | nil => intro acc h1 h2; exact ⟨h1, h2⟩
  | cons r rs ih =>
    intro acc h1 h2
    obtain ⟨g1, g2⟩ := sanitizeStep_inv acc r h1 h2
    simpa [List.foldl_cons] using ih _ g1 g2

theorem firstHitAux_spec {α : Type} (f : Nat → Option α) :
    ∀ fuel i v, firstHitAux f i fuel = some v →
      ∃ j, i ≤ j ∧ j < i + fuel ∧ f j = some v ∧ ∀ k, i ≤ k → k < j → f k = none := by
  intro fuel
  induction fuel with
  | zero => intro i v h; simp [firstHitAux] at h
  | succ fl ih =>
    intro i v h
    rw [firstHitAux] at h
    cases hfi : f i with
    | some w =>
      rw [hfi] at h
      simp only at h
      refine ⟨i, le_refl i, by omega, ?_, ?_⟩
      · rw [hfi, h]
      · intro k hk1 hk2; omega
    | none =>
      rw [hfi] at h
      simp only at h
      obtain ⟨j, hj1, hj2, hj3, hj4⟩ := ih (i + 1) v h
      refine ⟨j, by omega, by omega, hj3, ?_⟩
      intro k hk1 hk2
      rcases Nat.eq_or_lt_of_le hk1 with hk | hk
      · rw [← hk]; exact hfi
      · exact hj4 k hk hk2

/-- A one-hole context: a position in the document forest where a subtree
can be placed, at arbitrary depth. -/
inductive Ctx where
  | here (sib : Dom)
  | afterText (s : JStr) (inner : Ctx)
  | inChildren (tag : JStr) (attrs : List (JStr × JStr)) (inner : Ctx) (sib : Dom)
  | afterElem (tag : JStr) (attrs : List (JStr × JStr)) (children : Dom) (inner : Ctx)

/-- Place a node former (`Dom.elem tag attrs ch`, or `id` for nothing) at the
hole of a context. -/
def Ctx.fill : Ctx → (Dom → Dom) → Dom
  | .here sib, ins => ins sib
  | .afterText s c, ins => .text s (Ctx.fill c ins)
  | .inChildren t a c sib, ins => .elem t a (Ctx.fill c ins) sib
  | .afterElem t a ch c, ins => .elem t a ch (Ctx.fill c ins)

theorem stripNodes_fill_scriptStyle (tag : JStr) (attrs : List (JStr × JStr))
    (ch : Dom) (h : tag = jstr "script" ∨ tag = jstr "style") :
    ∀ C : Ctx, stripNodes (C.fill (Dom.elem tag attrs ch)) = stripNodes (C.fill id) := by
  intro C
  induction C with
  | here sib =>
    simp only [Ctx.fill, stripNodes, id]
    rw [if_pos h]
  | afterText s c ih => simp only [Ctx.fill, stripNodes, ih]
  | inChildren t a c sib ih =>
    simp only [Ctx.fill, stripNodes]
    split
    · rfl
    · rw [ih]
  | afterElem t a ch2 c ih =>
    simp only [Ctx.fill, stripNodes]
    split
    · exact ih
    · rw [ih]

theorem selectMailto_href (d : Dom) : ∀ a : List (JStr × JStr),
    a ∈ selectMailto d → ∃ h, lookupCU a (jstr "href") = some h := by
  induction d with
  | nil => intro a ha; simp [selectMailto] at ha
  | text s sib ih => intro a ha; exact ih a (by simpa [selectMailto] using ha)
  | elem t ats c sib ihc ihs =>
    intro a ha
    simp only [selectMailto, List.mem_append] at ha
    rcases ha with (ha | ha) | ha
    · by_cases hm : isMailtoA t ats
      · rw [if_pos hm] at ha
        rw [List.mem_singleton] at ha
        subst ha
        have h2 : hasPfx (jstr "mailto:") ((lookupCU a (jstr "href")).getD []) = true := by
          simp only [isMailtoA, Bool.and_eq_true] at hm
          exact hm.2
        cases hl : lookupCU a (jstr "href") with
        | some h => exact ⟨h, rfl⟩
        | none =>
          rw [hl] at h2
          simp only [Option.getD_none] at h2
          exact absurd h2 (by decide)
      · rw [if_neg hm] at ha
        simp at ha
    · exact ihc a ha
    · exact ihs a ha

theorem mailtoCandsEAux_ok (l : List (List (JStr × JStr)))
    (hl : ∀ a ∈ l, ∃ h, lookupCU a (jstr "href") = some h) :
    mailtoCandsEAux l =
      .ok (l.filterMap (fun a => (lookupCU a (jstr "href")).map mailtoXform)) := by
  induction l with
  | nil => rfl
  | cons a rest ih =>
    obtain ⟨h, hh⟩ := hl a (by simp)
    have ihr := ih (fun b hb => hl b (List.mem_cons_of_mem a hb))
    simp [mailtoCandsEAux, hh, ihr, List.filterMap_cons]

theorem lookupCU_append_right (rec : JRec) (k v : JStr) (h : lookupCU rec k = none) :
    lookupCU (rec ++ [(k, v)]) k = some v := by
  induction rec with
  | nil => simp [lookupCU]
  | cons p rest ih =>
    obtain ⟨pk, pv⟩ := p
    simp only [lookupCU] at h
    simp only [List.cons_append, lookupCU]
    by_cases hk : pk = k
    · rw [if_pos hk] at h
      exact absurd h (Option.some_ne_none _)
    · rw [if_neg hk] at h ⊢
      exact ih h

theorem lookupCU_map_set (rec : JRec) (k v : JStr) (h : (lookupCU rec k).isSome) :
    lookupCU (rec.map (fun p => if p.1 = k then (k, v) else p)) k = some v := by
  induction rec with
  | nil => simp [lookupCU] at h
  | cons p rest ih =>
    obtain ⟨pk, pv⟩ := p
    simp only [lookupCU] at h
    simp only [List.map_cons]
    by_cases hk : pk = k
    · rw [show (if (pk, pv).1 = k then (k, v) else (pk, pv)) = (k, v) from if_pos hk]
      simp [lookupCU]
    · rw [show (if (pk, pv).1 = k then (k, v) else (pk, pv)) = (pk, pv) from if_neg hk]
      simp only [lookupCU]
      rw [if_neg hk]
      rw [if_neg hk] at h
      exact ih h

theorem lookupCU_setKey (rec : JRec) (k v : JStr) :
    lookupCU (setKey rec k v) k = some v := by
  unfold setKey
  split
  · exact lookupCU_map_set rec k v (by assumption)
  · rename_i hs
    exact lookupCU_append_right rec k v (Option.not_isSome_iff_eq_none.1 hs)

theorem renderFallback_oc (env : Env) (u : JStr) :
    (renderFallback env u).opened = (renderFallback env u).closed := by
  unfold renderFallback
  split
  · cases env.renderResult u <;> rfl
  · rfl

/-! ### Claim theorems -/

/-- C4: for every URL whose statically fetched body yields a non-empty
extracted address set, the resolver returns that set unchanged and the render
fallback is never invoked: zero pages are opened in the rendering context. -/
theorem noEscalation_onHit (env : Env) (url finalUrl : JStr) (body : Dom)
    (hf : env.fetchResult url = some (finalUrl, body))
    (hne : basicScrape body ≠ []) :
    scrapeEmails env url =
      { result := .ok (basicScrape body), opened := 0, closed := 0, warnings := [] } := by
  unfold scrapeEmails
  rw [hf]
  simp only
  rw [if_neg hne]

/-- Environment for the no-escalation witness: the static body already
contains an address. -/
def envStaticHit : Env :=
  { fetchResult := fun _ => some (jstr "http://a.example", (Dom.text (jstr "reach me at x@y.com") Dom.nil)),
    newPageOk := true,
    renderResult := fun _ => .ok Dom.nil }

theorem noEscalation_onHit_witness :
    envStaticHit.fetchResult (jstr "http://a.example") =
      some (jstr "http://a.example", (Dom.text (jstr "reach me at x@y.com") Dom.nil))
    ∧ basicScrape (Dom.text (jstr "reach me at x@y.com") Dom.nil) = [jstr "x@y.com"]
    ∧ scrapeEmails envStaticHit (jstr "http://a.example") =
      { result := .ok (basicScrape (Dom.text (jstr "reach me at x@y.com") Dom.nil)),
        opened := 0, closed := 0, warnings := [] } :=
  ⟨rfl, by decide,
    noEscalation_onHit envStaticHit (jstr "http://a.example") _ _ rfl (by decide)⟩

/-- C5: for every URL whose statically fetched body yields an empty set, the
resolver renders the final (post-redirect) URL, returns whatever the extractor
finds in the rendered body (even the empty set), and absorbs a render
timeout/navigation error as the empty set plus a warning, not as a failure. -/
theorem escalation_onEmpty (env : Env) (url finalUrl : JStr) (body : Dom)
    (hf : env.fetchResult url = some (finalUrl, body))
    (he : basicScrape body = [])
    (hp : env.newPageOk = true) :
    (∀ rendered, env.renderResult finalUrl = .ok rendered →
      scrapeEmails env url =
        { result := .ok (basicScrape rendered), opened := 1, closed := 1, warnings := [] })
    ∧ (∀ msg, env.renderResult finalUrl = .error msg →
      scrapeEmails env url =
        { result := .ok [], opened := 1, closed := 1,
          warnings := ["Puppeteer error: " ++ msg] }) := by
  constructor
  · intro rendered hr
    unfold scrapeEmails
    rw [hf]
    simp only
    rw [if_pos he]
    unfold renderFallback
    rw [if_pos hp, hr]
  · intro msg hr
    unfold scrapeEmails
    rw [hf]
    simp only
    rw [if_pos he]
    unfold renderFallback
    rw [if_pos hp, hr]
    simp only
    rw [he]

/-- Environment for the escalation witness: empty static body, a rendered
body containing an address at the post-redirect URL only (rendering the
originally requested URL would fail). -/
def envEscalate : Env :=
  { fetchResult := fun u =>
      if u = jstr "http://s.example" then
        some (jstr "http://f.example", (Dom.text (jstr "welcome") Dom.nil))
      else none,
    newPageOk := true,
    renderResult := fun u =>
      if u = jstr "http://f.example" then .ok (Dom.text (jstr "contact@example.org") Dom.nil)
      else .error "nav" }

theorem escalation_onEmpty_witness :
    envEscalate.fetchResult (jstr "http://s.example") =
      some (jstr "http://f.example", (Dom.text (jstr "welcome") Dom.nil))
    ∧ basicScrape (Dom.text (jstr "welcome") Dom.nil) = []
    ∧ envEscalate.newPageOk = true
    ∧ envEscalate.renderResult (jstr "http://s.example") = .error "nav"
    ∧ basicScrape (Dom.text (jstr "contact@example.org") Dom.nil) = [jstr "contact@example.org"]
    ∧ scrapeEmails envEscalate (jstr "http://s.example") =
      { result := .ok (basicScrape (Dom.text (jstr "contact@example.org") Dom.nil)),
        opened := 1, closed := 1, warnings := [] } :=
  ⟨rfl, by decide, rfl, rfl, by decide,
    (escalation_onEmpty envEscalate (jstr "http://s.example") _ _ rfl (by decide) rfl).1
      (Dom.text (jstr "contact@example.org") Dom.nil) rfl⟩

/-- C8: for every parsed document (the external parser is best-effort and
total), the extractor neither throws nor fails: the run with the fallible
attribute access made explicit returns `ok` of the pure result. -/
theorem extract_total : ∀ doc : Dom, basicScrapeE doc = Except.ok (basicScrape doc) := by
  intro doc
  unfold basicScrapeE basicScrape mailtoCandsE rawPool mailtoCands
  rw [mailtoCandsEAux_ok _ (selectMailto_href _)]
  rfl

/-- C9: every invocation of the render fallback closes exactly as many
pages as it opened, on every exit path (successful render, timeout or
navigation error, and a failed page open), and so does the whole resolver. -/
theorem page_always_closed :
    ∀ (env : Env) (u url : JStr),
      (renderFallback env u).opened = (renderFallback env u).closed
      ∧ (scrapeEmails env url).opened = (scrapeEmails env url).closed := by
  intro env u url
  refine ⟨renderFallback_oc env u, ?_⟩
  unfold scrapeEmails
  cases hf : env.fetchResult url with
  | none => rfl
  | some p =>
    obtain ⟨fu, body⟩ := p
    simp only
    split
    · exact renderFallback_oc env fu
    · rfl

/-- C7: email-shaped text located inside a script or style subtree
contributes no entry: inserting such a subtree at any position of the
document leaves the extracted set unchanged. -/
theorem scriptStyle_excluded (C : Ctx) (tag : JStr) (attrs : List (JStr × JStr)) (ch : Dom)
    (h : tag = jstr "script" ∨ tag = jstr "style") :
    basicScrape (C.fill (Dom.elem tag attrs ch)) = basicScrape (C.fill id) := by
  unfold basicScrape
  rw [stripNodes_fill_scriptStyle tag attrs ch h C]

theorem scriptStyle_excluded_witness :
    (jstr "script" = jstr "script" ∨ jstr "script" = jstr "style")
    ∧ basicScrape (Ctx.fill (Ctx.here (Dom.text (jstr "write to x@y.org") Dom.nil))
        (Dom.elem (jstr "script") [] (Dom.text (jstr "spam@mail.com") Dom.nil))) =
      basicScrape (Ctx.fill (Ctx.here (Dom.text (jstr "write to x@y.org") Dom.nil)) id)
    ∧ basicScrape (Dom.elem (jstr "script") [] (Dom.text (jstr "spam@mail.com") Dom.nil)
        (Dom.text (jstr "write to x@y.org") Dom.nil)) = [jstr "x@y.org"] :=
  ⟨Or.inl rfl, scriptStyle_excluded _ _ _ _ (Or.inl rfl), by decide⟩

/-- C6: the extracted set never contains two case-insensitively equal
entries, every entry is lower-cased, and markup holding both `A@B.com` and
`a@b.com` yields exactly the one canonical entry `a@b.com`. -/
theorem extract_canonical :
    (∀ (doc : Dom) (e : JStr), e ∈ basicScrape doc → lowerCU e = e)
    ∧ (∀ doc : Dom, (basicScrape doc).Pairwise (fun a b => lowerCU a ≠ lowerCU b))
    ∧ basicScrape (Dom.text (jstr "Mail A@B.com or a@b.com now") Dom.nil) =
        [jstr "a@b.com"] := by
  have hmem : ∀ (doc : Dom) (e : JStr), e ∈ basicScrape doc → lowerCU e = e := by
    intro doc e he
    exact (sanitize_inv (rawPool (stripNodes doc)) [] (by simp) List.nodup_nil).1 e he
  refine ⟨hmem, ?_, by decide⟩
  intro doc
  have hnd : (basicScrape doc).Nodup :=
    (sanitize_inv (rawPool (stripNodes doc)) [] (by simp) List.nodup_nil).2
  refine hnd.imp_of_mem ?_
  intro a b ha hb hne
  rw [hmem doc a ha, hmem doc b hb]
  exact hne

theorem extract_canonical_witness :
    (jstr "a@b.com") ∈ basicScrape (Dom.text (jstr "Mail A@B.com or a@b.com now") Dom.nil)
    ∧ lowerCU (jstr "a@b.com") = jstr "a@b.com" :=
  ⟨by decide,
    extract_canonical.1 (Dom.text (jstr "Mail A@B.com or a@b.com now") Dom.nil)
      (jstr "a@b.com") (by decide)⟩

/-- Leftmost-match property of the strict pattern search: the hit returned
by `firstMatch` is at the smallest position admitting any match. -/
theorem firstMatch_leftmost (s : JStr) (i e : Nat) (hm : firstMatch s = some (i, e)) :
    matchAt s i = some e ∧ ∀ k, k < i → matchAt s k = none := by
  obtain ⟨j, hj1, hj2, hj3, hj4⟩ := firstHitAux_spec _ _ _ _ hm
  cases hmj : matchAt s j with
  | none =>
    rw [hmj] at hj3
    exact absurd hj3 (by simp)
  | some e2 =>
    rw [hmj] at hj3
    have h2 : (j, e2) = (i, e) := Option.some.inj (by simpa using hj3)
    have hji : j = i := congrArg Prod.fst h2
    have hee : e2 = e := congrArg Prod.snd h2
    subst hji
    subst hee
    refine ⟨hmj, ?_⟩
    intro k hk
    have hnone := hj4 k (Nat.zero_le k) hk
    cases hmk : matchAt s k with
    | none => rfl
    | some w =>
      rw [hmk] at hnone
      exact absurd hnone (by simp)

/-- C3 (amended): the strict non-global re-match isolates the leftmost valid
email match of the (possibly percent-decoded) candidate — greedy at that
position, but not the longest overall; candidates with no strict match are
discarded; a candidate holding a shorter email before a longer one keeps the
shorter, leftmost one. -/
theorem strict_rematch_leftmost :
    (∀ (s : JStr) (i e : Nat), firstMatch s = some (i, e) →
      strictMatch s = some ((s.drop i).take (e - i))
      ∧ matchAt s i = some e
      ∧ ∀ k, k < i → matchAt s k = none)
    ∧ (∀ (acc : List JStr) (raw : JStr),
        strictMatch ((decodeURIComponentCU raw).getD raw) = none →
        sanitizeStep acc raw = acc)
    ∧ sanitizeStep [] (jstr "a@b.co thisislonger@example.com") = [jstr "a@b.co"] := by
  refine ⟨?_, ?_, by decide⟩
  · intro s i e hm
    obtain ⟨h1, h2⟩ := firstMatch_leftmost s i e hm
    exact ⟨by simp [strictMatch, hm], h1, h2⟩
  · intro acc raw hnone
    simp [sanitizeStep, hnone]

theorem strict_rematch_leftmost_witness :
    firstMatch (jstr "x a@b.cd") = some (2, 8)
    ∧ strictMatch (jstr "x a@b.cd") = some (((jstr "x a@b.cd").drop 2).take (8 - 2)) :=
  ⟨by decide, (strict_rematch_leftmost.1 (jstr "x a@b.cd") 2 8 (by decide)).1⟩

/-- C3 counterexample: a pooled raw candidate (arising from a mailto href)
contains two valid email substrings of different lengths, and the sanitize
loop keeps the shorter, leftmost one — not the longer one. -/
theorem strict_rematch_longest_cex :
    (jstr "a@b.co thisislonger@example.com") ∈
      rawPool (stripNodes (Dom.elem (jstr "a")
        [(jstr "href", jstr "mailto:a@b.co thisislonger@example.com")]
        (Dom.text (jstr "click") Dom.nil) Dom.nil))
    ∧ sanitizeStep [] (jstr "a@b.co thisislonger@example.com") = [jstr "a@b.co"]
    ∧ strictMatch (jstr "thisislonger@example.com") = some (jstr "thisislonger@example.com")
    ∧ jstr "a@b.co thisislonger@example.com" =
        jstr "a@b.co " ++ jstr "thisislonger@example.com"
    ∧ (jstr "a@b.co").length < (jstr "thisislonger@example.com").length := by
  refine ⟨by decide, by decide, by decide, by decide, by decide⟩

/-- Failing environment: every static fetch rejects. -/
def envFetchFail : Env :=
  { fetchResult := fun _ => none,
    newPageOk := false,
    renderResult := fun _ => .error "unused" }

/-- C1 (amended): for every record whose URL resolution fails outright, the
emails value — and hence the written cell once the RFC-4180-style wrapping of
`escapeCell` is undone — is the seven-character string `"ERROR"` (ERROR
wrapped in literal double quotes), not the bare five characters `ERROR`. -/
theorem errorMarker_cell (env : Env) (rec : JRec) (url : JStr)
    (hw : lookupCU rec (jstr "website") = some url) (hnz : url ≠ [])
    (hf : env.fetchResult url = none) :
    lookupCU (processRecord env rec) (jstr "emails") = some (jstr "\"ERROR\"")
    ∧ unescapeCell (escapeCell (jstr "\"ERROR\"")) = some (jstr "\"ERROR\"")
    ∧ jstr "\"ERROR\"" ≠ jstr "ERROR" := by
  have hres : (scrapeEmails env url).result = .error "fetch failed" := by
    unfold scrapeEmails
    rw [hf]
  refine ⟨?_, by decide, by decide⟩
  unfold processRecord
  rw [hw]
  simp only
  rw [if_neg hnz, hres]
  simp only
  exact lookupCU_setKey rec _ _

/-- C1 counterexample: with a failing fetch, the written output table's
emails cells unescape to the quoted `"ERROR"`, never to the bare `ERROR`. -/
theorem errorMarker_cell_cex :
    runMain envFetchFail [[(jstr "website", jstr "http://bad.example")]] =
      some [jstr "website,emails,emails",
        joinComma [escapeCell (jstr "http://bad.example"),
          escapeCell (jstr "\"ERROR\""), escapeCell (jstr "\"ERROR\"")]]
    ∧ unescapeCell (escapeCell (jstr "\"ERROR\"")) = some (jstr "\"ERROR\"")
    ∧ unescapeCell (escapeCell (jstr "http://bad.example")) = some (jstr "http://bad.example")
    ∧ jstr "\"ERROR\"" ≠ jstr "ERROR" := by
  refine ⟨by decide, by decide, by decide, by decide⟩

theorem errorMarker_cell_witness :
    lookupCU [(jstr "website", jstr "http://bad.example")] (jstr "website") =
      some (jstr "http://bad.example")
    ∧ jstr "http://bad.example" ≠ []
    ∧ envFetchFail.fetchResult (jstr "http://bad.example") = none
    ∧ lookupCU (processRecord envFetchFail [(jstr "website", jstr "http://bad.example")])
        (jstr "emails") = some (jstr "\"ERROR\"") :=
  ⟨by decide, by decide, rfl,
    (errorMarker_cell envFetchFail [(jstr "website", jstr "http://bad.example")]
      (jstr "http://bad.example") (by decide) (by decide) rfl).1⟩

/-- C2 (amended): when the static fetch request itself rejects, the resolver
surfaces the failure without attempting the render fallback (zero pages
opened), the record's emails value is recorded as the quoted sentinel
`"ERROR"`, and the batch continues through all remaining records. -/
theorem fetchFailure_flow (env : Env) (url : JStr) (hf : env.fetchResult url = none) :
    scrapeEmails env url =
      { result := .error "fetch failed", opened := 0, closed := 0, warnings := [] }
    ∧ (∀ rec : JRec, lookupCU rec (jstr "website") = some url → url ≠ [] →
        lookupCU (processRecord env rec) (jstr "emails") = some (jstr "\"ERROR\""))
    ∧ (∀ (r0 : JRec) (rest : List JRec), ∃ lines,
        runMain env (r0 :: rest) = some lines ∧ lines.length = rest.length + 2) := by
  have hs : scrapeEmails env url =
      { result := .error "fetch failed", opened := 0, closed := 0, warnings := [] } := by
    unfold scrapeEmails
    rw [hf]
  refine ⟨hs, ?_, ?_⟩
  · intro rec hw hnz
    unfold processRecord
    rw [hw]
    simp only
    rw [if_neg hnz, hs]
    simp only
    exact lookupCU_setKey rec _ _
  · intro r0 rest
    refine ⟨_, rfl, ?_⟩
    simp [runMain]

/-- C2 counterexample: the recorded emails value on a fetch failure is the
seven-character quoted `"ERROR"`, not the literal five characters `ERROR`. -/
theorem fetchFailure_flow_cex :
    lookupCU (processRecord envFetchFail [(jstr "website", jstr "http://two.example")])
      (jstr "emails") = some (jstr "\"ERROR\"")
    ∧ lookupCU (processRecord envFetchFail [(jstr "website", jstr "http://two.example")])
      (jstr "emails") ≠ some (jstr "ERROR")
    ∧ (scrapeEmails envFetchFail (jstr "http://two.example")).opened = 0 := by
  refine ⟨by decide, by decide, rfl⟩

theorem fetchFailure_flow_witness :
    envFetchFail.fetchResult (jstr "http://two.example") = none
    ∧ scrapeEmails envFetchFail (jstr "http://two.example") =
      { result := .error "fetch failed", opened := 0, closed := 0, warnings := [] } :=
  ⟨rfl, (fetchFailure_flow envFetchFail (jstr "http://two.example") rfl).1⟩

/-- C10: the output filename is the sheet edit page's title with a trailing
`- Google Sheets` suffix stripped and `.csv` appended; a failed page fetch or
a page without a title falls back to `output.csv`. -/
theorem outFilename_derivation :
    outFilename none = jstr "output.csv"
    ∧ (∀ htmlDoc, findTitle htmlDoc = none → outFilename (some htmlDoc) = jstr "output.csv")
    ∧ (∀ htmlDoc t, findTitle htmlDoc = some t →
        outFilename (some htmlDoc) = stripGS t ++ jstr ".csv")
    ∧ stripGS (jstr "My Data - Google Sheets") = jstr "My Data"
    ∧ stripGS (jstr "Untitled") = jstr "Untitled" := by
  refine ⟨rfl, ?_, ?_, by decide, by decide⟩
  · intro h hh
    unfold outFilename
    simp only
    rw [hh]
  · intro h t hh
    unfold outFilename
    simp only
    rw [hh]

theorem outFilename_derivation_witness :
    findTitle (jstr "<head><title>My Data - Google Sheets</title></head>") =
      some (jstr "My Data - Google Sheets")
    ∧ outFilename (some (jstr "<head><title>My Data - Google Sheets</title></head>")) =
      stripGS (jstr "My Data - Google Sheets") ++ jstr ".csv"
    ∧ stripGS (jstr "My Data - Google Sheets") ++ jstr ".csv" = jstr "My Data.csv" :=
  ⟨by decide,
    outFilename_derivation.2.2.1 (jstr "<head><title>My Data - Google Sheets</title></head>")
      (jstr "My Data - Google Sheets") (by decide),
    by decide⟩
